import Mathlib

/-!
Verification development for the exampill study-planner core (`src/app.py`).

The embedding models the four core operations of the pipeline:
  - `generate_study_plan` (app.py lines 105-168), with the generative-model
    response supplied as an explicit `Option String` argument (the collaborator
    `call_model` returns either a stripped text or `None`, and never raises);
  - `rank_videos` (app.py lines 210-302), likewise parameterised by the raw
    model response;
  - the merge loop shared by `main` (lines 388-394) and `topic_videos`
    (lines 518-524), modelled with an explicit candidate store so that the
    in-place mutation of candidate dicts is visible;
  - the topic normalization and sort of `topics_page` (lines 437-473).

Python values produced by `json.loads` are modelled by `JVal`; an operation
that can raise is modelled with `Option` (`none` = the Python call raised).
The JSON decoder below models `json.loads` on the JSON fragment used by the
program: objects, arrays, strings (with the standard escapes; `\u` is mapped
through `Char.ofNat`, surrogate pairs are not combined), integer numerals,
`true`/`false`/`null`.  Fractional and exponent numerals are not modelled
(the decoder rejects them); no claim below depends on non-integer numbers.
-/

/-- Model of Python values that flow out of `json.loads` and through the
topic/ranking pipeline. -/
inductive JVal where
  | null
  | bool (b : Bool)
  | num (n : Int)
  | str (s : String)
  | arr (elems : List JVal)
  | obj (fields : List (String × JVal))
deriving Repr

/-- Python `dict` lookup on a parsed object.  A Python dict keeps the last
value written for a key, so the fold keeps the last matching field. -/
def olookup (fs : List (String × JVal)) (k : String) : Option JVal :=
  fs.foldl (fun acc f => if f.1 == k then some f.2 else acc) none

/-- Python truthiness (`if x:`) for the modelled values. -/
def truthy : JVal → Bool
  | JVal.null => false
  | JVal.bool b => b
  | JVal.num n => n != 0
  | JVal.str s => s != ""
  | JVal.arr xs => !xs.isEmpty
  | JVal.obj fs => !fs.isEmpty

/-- Python `a or b` on modelled values: `a` when truthy, else `b`. -/
def pyOr (a b : JVal) : JVal := if truthy a then a else b

/-- Python `str(x)` for the values it is applied to in the source (only
non-iterable values reach it; see `resolveConcepts`). -/
def pyStr : JVal → String
  | JVal.null => "None"
  | JVal.bool true => "True"
  | JVal.bool false => "False"
  | JVal.num n => toString n
  | JVal.str s => s
  | JVal.arr _ => ""
  | JVal.obj _ => ""

/-- Python `list(x)`: succeeds on iterables (a string yields its characters
as one-character strings, a dict yields its keys), fails (raises) on
`null`/booleans/numbers. -/
def pyList : JVal → Option (List JVal)
  | JVal.str s => some (s.data.map (fun c => JVal.str (String.mk [c])))
  | JVal.arr xs => some xs
  | JVal.obj fs => some (fs.map (fun f => JVal.str f.1))
  | _ => none

/-- Characters stripped by Python `str.strip()` (the ASCII whitespace set;
the program only feeds it model text). -/
def pyWs (c : Char) : Bool :=
  c == ' ' || c == '\t' || c == '\n' || c == '\r' || c == '\x0b' || c == '\x0c'

/-- Python `text.strip()` over an explicit character list. -/
def pyStrip (cs : List Char) : List Char :=
  ((cs.dropWhile pyWs).reverse.dropWhile pyWs).reverse

/-- First character offset of `needle` in a text, Python `text.find(needle)`
(`some` offset of the first occurrence, `none` when absent; the empty needle
is found at offset 0, as in Python). -/
def findSub (needle : List Char) : List Char → Option Nat
  | [] => if needle.isEmpty then some 0 else none
  | c :: t =>
    if needle.isPrefixOf (c :: t) then some 0
    else (findSub needle t).map (· + 1)

/-- Python `sub in s` on strings. -/
def containsSub (sub : String) (s : String) : Bool := (findSub sub.data s.data).isSome

/-- Markdown code-fence stripping shared by `generate_study_plan`
(lines 141-146) and `rank_videos` (lines 243-248). -/
def cleanMarkdown (cs : List Char) : List Char :=
  let a := if "```json".data.isPrefixOf cs then cs.drop 7 else cs
  let b := if "```".data.isPrefixOf a then a.drop 3 else a
  if "```".data.isSuffixOf b then b.take (b.length - 3) else b

/-- Fence stripping followed by `strip()` (lines 141-147 / 243-249). -/
def prepText (s : String) : List Char := pyStrip (cleanMarkdown s.data)

/-! ### JSON decoding, modelling `json.loads` -/

/-- JSON whitespace skipping. -/
def skipWs (cs : List Char) : List Char :=
  cs.dropWhile (fun c => c == ' ' || c == '\t' || c == '\n' || c == '\r')

/-- Hexadecimal digit value. -/
def hexVal (c : Char) : Option Nat :=
  if '0' ≤ c ∧ c ≤ '9' then some (c.toNat - '0'.toNat)
  else if 'a' ≤ c ∧ c ≤ 'f' then some (c.toNat - 'a'.toNat + 10)
  else if 'A' ≤ c ∧ c ≤ 'F' then some (c.toNat - 'A'.toNat + 10)
  else none

/-- Decimal digit test. -/
def isDigit (c : Char) : Bool := '0' ≤ c && c ≤ '9'

/-- Body of a JSON string after the opening quote; returns the decoded
string and the remainder after the closing quote. -/
def parseStrBody (acc : List Char) : List Char → Option (String × List Char)
  | [] => none
  | c :: rest =>
    if c == '"' then some (String.mk acc.reverse, rest)
    else if c == '\\' then
      match rest with
      | [] => none
      | e :: rest2 =>
        if e == '"' then parseStrBody ('"' :: acc) rest2
        else if e == '\\' then parseStrBody ('\\' :: acc) rest2
        else if e == '/' then parseStrBody ('/' :: acc) rest2
        else if e == 'n' then parseStrBody ('\n' :: acc) rest2
        else if e == 't' then parseStrBody ('\t' :: acc) rest2
        else if e == 'r' then parseStrBody ('\r' :: acc) rest2
        else if e == 'b' then parseStrBody ('\x08' :: acc) rest2
        else if e == 'f' then parseStrBody ('\x0c' :: acc) rest2
        else if e == 'u' then
          match rest2 with
          | a :: b :: c2 :: d :: rest3 =>
            match hexVal a, hexVal b, hexVal c2, hexVal d with
            | some ha, some hb, some hc, some hd =>
              parseStrBody (Char.ofNat (((ha * 16 + hb) * 16 + hc) * 16 + hd) :: acc) rest3
            | _, _, _, _ => none
          | _ => none
        else none
    else if c.toNat < 32 then none
    else parseStrBody (c :: acc) rest

/-- JSON integer numeral (strict grammar: optional minus, no leading zeros;
fractional/exponent numerals are rejected, see the file header). -/
def parseNum (cs : List Char) : Option (Int × List Char) :=
  let p := match cs with
    | '-' :: t => (true, t)
    | _ => (false, cs)
  match p.2 with
  | [] => none
  | c :: _ =>
    if isDigit c then
      let digs := p.2.takeWhile isDigit
      let rest := p.2.dropWhile isDigit
      if digs.length > 1 && digs.headD '0' == '0' then none
      else
        match rest with
        | '.' :: _ => none
        | 'e' :: _ => none
        | 'E' :: _ => none
        | _ =>
          let n : Nat := digs.foldl (fun a d => a * 10 + (d.toNat - '0'.toNat)) 0
          some (if p.1 then -(n : Int) else (n : Int), rest)
    else none

mutual

/-- JSON value, fuelled recursion (the fuel passed by `jsonLoads` is always
sufficient for its input). -/
def parseVal : Nat → List Char → Option (JVal × List Char)
  | 0, _ => none
  | fuel + 1, cs0 =>
    match skipWs cs0 with
    | [] => none
    | c :: rest =>
      if c == '{' then
        match skipWs rest with
        | '}' :: r2 => some (JVal.obj [], r2)
        | r1 => parseFields fuel r1 []
      else if c == '[' then
        match skipWs rest with
        | ']' :: r2 => some (JVal.arr [], r2)
        | r1 => parseElems fuel r1 []
      else if c == '"' then
        (parseStrBody [] rest).map (fun q => (JVal.str q.1, q.2))
      else if c == 't' then
        if "rue".data.isPrefixOf rest then some (JVal.bool true, rest.drop 3) else none
      else if c == 'f' then
        if "alse".data.isPrefixOf rest then some (JVal.bool false, rest.drop 4) else none
      else if c == 'n' then
        if "ull".data.isPrefixOf rest then some (JVal.null, rest.drop 3) else none
      else
        (parseNum (c :: rest)).map (fun q => (JVal.num q.1, q.2))

/-- Elements of a JSON array after the opening bracket (nonempty case). -/
def parseElems : Nat → List Char → List JVal → Option (JVal × List Char)
  | 0, _, _ => none
  | fuel + 1, cs, acc =>
    match parseVal fuel cs with
    | none => none
    | some (v, rest) =>
      match skipWs rest with
      | ',' :: r2 => parseElems fuel r2 (acc ++ [v])
      | ']' :: r2 => some (JVal.arr (acc ++ [v]), r2)
      | _ => none

/-- Fields of a JSON object after the opening brace (nonempty case). -/
def parseFields : Nat → List Char → List (String × JVal) → Option (JVal × List Char)
  | 0, _, _ => none
  | fuel + 1, cs, acc =>
    match skipWs cs with
    | '"' :: r1 =>
      match parseStrBody [] r1 with
      | none => none
      | some (k, r2) =>
        match skipWs r2 with
        | ':' :: r3 =>
          match parseVal fuel r3 with
          | none => none
          | some (v, r4) =>
            match skipWs r4 with
            | ',' :: r5 => parseFields fuel r5 (acc ++ [(k, v)])
            | '}' :: r5 => some (JVal.obj (acc ++ [(k, v)]), r5)
            | _ => none
        | _ => none
    | _ => none

end

/-- Model of `json.loads`: decode one JSON value and require that only
whitespace follows, else fail (raise). -/
def jsonLoads (s : String) : Option JVal :=
  match parseVal (2 * s.length + 4) s.data with
  | some (v, rest) => if (skipWs rest).isEmpty then some v else none
  | none => none

/-! ### TopicPlanGenerator: `generate_study_plan` (app.py lines 105-168) -/

/-- One topic of the static fallback plan (app.py lines 155-163). -/
def fbTopic (nm w : String) (h : Int) (c1 c2 c3 : String) : JVal :=
  JVal.obj [("name", JVal.str nm), ("weightage", JVal.str w), ("estimated_hours", JVal.num h),
    ("key_concepts", JVal.arr [JVal.str c1, JVal.str c2, JVal.str c3])]

/-- The fixed fallback plan returned when the model yields no text. -/
def fallbackPlan : JVal :=
  JVal.obj [("topics", JVal.arr
    [ fbTopic "Important Topic 1" "HIGH" 12 "Concept A" "Concept B" "Concept C"
    , fbTopic "Important Topic 2" "HIGH" 10 "Concept D" "Concept E" "Concept F"
    , fbTopic "Topic 3" "MEDIUM" 8 "Concept G" "Concept H" "Concept I"
    , fbTopic "Topic 4" "LOW" 5 "Concept J" "Concept K" "Concept L"
    , fbTopic "Topic 5" "MEDIUM" 6 "Concept M" "Concept N" "Concept O" ])]

/-- Line 150 evaluates `len(plan['topics'])`: it succeeds exactly when the
decoded value is a dict whose `topics` entry supports `len` (a list, string
or dict); any other shape raises and `generate_study_plan` returns `None`. -/
def hasTopicsLen (plan : JVal) : Bool :=
  match plan with
  | JVal.obj fs =>
    match olookup fs "topics" with
    | some (JVal.arr _) => true
    | some (JVal.str _) => true
    | some (JVal.obj _) => true
    | _ => false
  | _ => false

/-- Model of `generate_study_plan` (lines 105-168).  The argument is what
`call_model` returned (`none` = no text / the call failed internally; the
text is already stripped by `call_model`).  The result is `some plan`
(a Python dict), `some fallbackPlan`, or `none` for the `return None` of the
exception handler at line 168. -/
def generate_study_plan (resp : Option String) : Option JVal :=
  match resp with
  | none => some fallbackPlan
  | some text =>
    if text == "" then some fallbackPlan
    else
      match jsonLoads (String.mk (prepText text)) with
      | some plan => if hasTopicsLen plan then some plan else none
      | none => none

/-! ### ResponseRanker: `rank_videos` (app.py lines 210-302) -/

/-- One candidate video as produced by `search_youtube` (lines 193-200);
`rank` and `reasoning` model the keys later added in place by the merge
loop (absent = `none`). -/
structure Video where
  video_id : String
  title : String
  channel : String
  url : String
  rank : Option Int
  reasoning : Option String
deriving DecidableEq, Repr

/-- Offset of the last occurrence of a character. -/
def lastIdxOf (c : Char) (cs : List Char) : Option Nat :=
  (List.findIdx? (fun x => x == c) cs.reverse).map (fun j => cs.length - 1 - j)

/-- The greedy regex `\x7b[\s\S]*\x7d` (and its bracket twin) of lines
255-256: it matches iff some closer follows the first opener, and the match
runs from the first opener to the last closer. -/
def extractBetween (o c : Char) (text : List Char) : Option (List Char) :=
  match List.findIdx? (fun x => x == o) text, lastIdxOf c text with
  | some i, some j => if i < j then some ((text.take (j + 1)).drop i) else none
  | _, _ => none

/-- Lines 254-260: object match first, else array match. -/
def extractJson (text : List Char) : Option (List Char) :=
  match extractBetween '{' '}' text with
  | some t => some t
  | none => extractBetween '[' ']' text

/-- Structured tier of `rank_videos` (lines 251-269).  Returns `some` output
when the tier returns from the function, `none` when control falls through
to the heuristic tier (no JSON-looking fragment, decode error, or the
`len`/slice of the decoded `ranked` value raising inside the inner `try`).
A decoded dict reads its `ranked_videos` key with default `[]`; slicing
`[:5]` succeeds on lists and strings only. -/
def tier1Ranked (result : JVal) : JVal :=
  match result with
  | JVal.obj fs => (olookup fs "ranked_videos").getD (JVal.arr [])
  | other => other

/-- The structured tier itself (lines 251-269); see `tier1Ranked` for the
`ranked` value of line 265. -/
def tier1 (text : List Char) : Option JVal :=
  match extractJson text with
  | none => none
  | some jt =>
    match jsonLoads (String.mk jt) with
    | none => none
    | some result =>
      match tier1Ranked result with
      | JVal.arr xs => some (JVal.arr (xs.take 5))
      | JVal.str s => some (JVal.str (String.mk (s.data.take 5)))
      | _ => none

/-- The clamped reasoning window of lines 281-283:
`text[max(0, pos-120) : min(len(text), pos+200)].strip()`
(natural subtraction is exactly the `max(0, ...)` clamp). -/
def window (text : List Char) (pos : Nat) : String :=
  String.mk (pyStrip ((text.take (min text.length (pos + 200))).drop (pos - 120)))

/-- One entry of the heuristic tier's `id_positions` list (lines 273-284). -/
structure IdPos where
  vid : String
  pos : Nat
  reasoning : String
deriving DecidableEq, Repr

/-- Lines 273-284: for each candidate in input order, skip a falsy (empty)
id, record the first offset of the id in the cleaned text together with the
clamped reasoning window; candidates whose id does not occur are dropped. -/
def idPositions (videos : List Video) (text : List Char) : List IdPos :=
  match videos with
  | [] => []
  | v :: vs =>
    if v.video_id == "" then idPositions vs text
    else
      match findSub v.video_id.data text with
      | some pos => ⟨v.video_id, pos, window text pos⟩ :: idPositions vs text
      | none => idPositions vs text

/-- Stable insertion step: insert before the first element of
greater-or-equal key. -/
def insKey (key : α → Nat) (x : α) : List α → List α
  | [] => [x]
  | y :: ys => if key x ≤ key y then x :: y :: ys else y :: insKey key x ys

/-- Stable sort by a natural key.  Python `list.sort(key=...)` is guaranteed
stable, and a stable sort by a key is unique as a function, so this
insertion sort computes exactly the list the Python sort produces. -/
def sortByKey (key : α → Nat) (l : List α) : List α := l.foldr (insKey key) []

/-- The ranked dicts built by the loops at lines 289-291 (heuristic tier)
and 298/302 (fallback): rank `i+1` follows `enumerate`. -/
def withRanks (mk : α → Int → JVal) (i : Nat) : List α → List JVal
  | [] => []
  | x :: xs => mk x (Int.ofNat i + 1) :: withRanks mk (i + 1) xs

/-- Heuristic-tier entry (line 291). -/
def tier2Entry (p : IdPos) (r : Int) : JVal :=
  JVal.obj [("video_id", JVal.str p.vid), ("rank", JVal.num r), ("reasoning", JVal.str p.reasoning)]

/-- Heuristic positional tier (lines 271-293): sort the found ids by offset
(stably) and rank the first five. -/
def tier2 (videos : List Video) (text : List Char) : List JVal :=
  withRanks tier2Entry 0 ((sortByKey IdPos.pos (idPositions videos text)).take 5)

/-- Deterministic fallback entry (lines 298 and 302): no `reasoning` key. -/
def fallbackEntry (v : Video) (r : Int) : JVal :=
  JVal.obj [("video_id", JVal.str v.video_id), ("rank", JVal.num r)]

/-- Deterministic fallback tier: the first five candidates in input order. -/
def fallbackJson (videos : List Video) : JVal :=
  JVal.arr (withRanks fallbackEntry 0 (videos.take 5))

/-- Model of `rank_videos` (lines 210-302), parameterised by the raw model
response (`none` = `call_model` returned `None`).  The result is a Python
value: a list of dicts in tiers 2/3, and whatever the decoded
`ranked_videos` value was (a list of arbitrary values, or a sliced string)
in tier 1. -/
def rank_videos (topic_name exam_name : String) (videos : List Video)
    (resp : Option String) : JVal :=
  if videos.isEmpty then JVal.arr []
  else
    match resp with
    | none => fallbackJson videos
    | some text =>
      if text == "" then fallbackJson videos
      else
        let t := prepText text
        match tier1 t with
        | some out => out
        | none =>
          let heur := tier2 videos t
          if heur.isEmpty then fallbackJson videos else JVal.arr heur

/-! ### ResultMerger: the merge loop of `main` (lines 388-394) and
`topic_videos` (lines 518-524). -/

/-- One ranked reference as consumed by the merge loop
(`ranked_video['video_id']`, `['rank']`, `.get('reasoning', '')`). -/
structure RankedRef where
  video_id : String
  rank : Int
  reasoning : Option String
deriving DecidableEq, Repr

/-- In-place update `full_video['rank'] = ...; full_video['reasoning'] = ...`
of the candidate stored at index `i`. -/
def setVid (cs : List Video) (i : Nat) (rk : Int) (rs : String) : List Video :=
  match cs[i]? with
  | some v => cs.set i { v with rank := some rk, reasoning := some rs }
  | none => cs

/-- Index of the first element satisfying `p`
(`next((v for v in videos if ...), None)` locates this element; the merge
then mutates it in place, so the model tracks its index). -/
def pyFindIdx (p : α → Bool) : List α → Option Nat
  | [] => none
  | x :: xs => if p x then some 0 else (pyFindIdx p xs).map (· + 1)

/-- The merge loop over the ranked references.  The candidate list is the
mutable store; the appended `topic['videos']` entries are aliases of the
stored dicts, so the output records indices into the final store. -/
def mergeGo (cs : List Video) (out : List Nat) : List RankedRef → List Video × List Nat
  | [] => (cs, out)
  | r :: rs =>
    match pyFindIdx (fun v => v.video_id == r.video_id) cs with
    | some i => mergeGo (setVid cs i r.rank (r.reasoning.getD "")) (out ++ [i]) rs
    | none => mergeGo cs out rs

/-- Model of the merge: returns the emitted `topic['videos']` list and the
final state of the candidate list (observably mutated by the loop). -/
def merge (cs : List Video) (refs : List RankedRef) : List Video × List Video :=
  let st := mergeGo cs [] refs
  (st.2.filterMap (fun i => st.1[i]?), st.1)

/-- Reference merge in the amended reading: iterate the references in their
given sequence order, emit the first matching candidate combined with the
reference's rank and reasoning (default empty string), drop unmatched
references. -/
def mergeSpec (cs : List Video) (refs : List RankedRef) : List Video :=
  refs.filterMap (fun r =>
    (cs.find? (fun v => v.video_id == r.video_id)).map
      (fun v => { v with rank := some r.rank, reasoning := some (r.reasoning.getD "") }))

/-! ### TopicNormalizer: `topics_page` (app.py lines 437-473) -/

/-- A raw topic record: a dict of string keys to arbitrary values. -/
abbrev RawTopic := List (String × JVal)

/-- Python `t.get(k)` (missing key gives `None`). -/
def tget (t : RawTopic) (k : String) : JVal := (olookup t k).getD JVal.null

/-- Line 439: `t.get('name') or t.get('topic') or t.get('title') or ''`. -/
def resolveName (t : RawTopic) : JVal :=
  pyOr (tget t "name") (pyOr (tget t "topic") (pyOr (tget t "title") (JVal.str "")))

/-- Line 440, before `.upper()`:
`t.get('weightage') or t.get('weight') or t.get('priority') or ''`. -/
def resolveWeightRaw (t : RawTopic) : JVal :=
  pyOr (tget t "weightage") (pyOr (tget t "weight") (pyOr (tget t "priority") (JVal.str "")))

/-- Character-wise `str.upper()` (the program's weights are ASCII). -/
def upperStr (s : String) : String := String.mk (s.data.map Char.toUpper)

/-- Character-wise `str.lower()`. -/
def lowerStr (s : String) : String := String.mk (s.data.map Char.toLower)

/-- Lines 441-450: membership test on the uppercased value, then the
substring detection on its `.lower()`, defaulting to MEDIUM. -/
def canonWeight (w : String) : String :=
  if w == "HIGH" || w == "MEDIUM" || w == "LOW" then w
  else if containsSub "high" (lowerStr w) then "HIGH"
  else if containsSub "med" (lowerStr w) then "MEDIUM"
  else if containsSub "low" (lowerStr w) then "LOW"
  else "MEDIUM"

/-- Lines 440-450 as a whole: `.upper()` raises (route error, modelled as
`none`) when the resolved raw value is not a string. -/
def resolveWeight (t : RawTopic) : Option String :=
  match resolveWeightRaw t with
  | JVal.str s => some (canonWeight (upperStr s))
  | _ => none

/-- Python `x` is `None` test. -/
def isNull : JVal → Bool
  | JVal.null => true
  | _ => false

/-- `t.get(k) is not None` as an optional value. -/
def presentNotNull (t : RawTopic) (k : String) : Option JVal :=
  match olookup t k with
  | some v => if isNull v then none else some v
  | none => none

/-- Line 452: the hours alias chain, tested with `is not None` (not
truthiness), defaulting to the empty string. -/
def resolveHours (t : RawTopic) : JVal :=
  match presentNotNull t "estimated_hours" with
  | some v => v
  | none =>
    match presentNotNull t "estimatedHours" with
    | some v => v
    | none =>
      match presentNotNull t "hours" with
      | some v => v
      | none => JVal.str ""

/-- Line 453: `t.get('key_concepts') or t.get('keyConcepts') or
t.get('concepts') or []`. -/
def conceptsValue (t : RawTopic) : JVal :=
  pyOr (tget t "key_concepts") (pyOr (tget t "keyConcepts") (pyOr (tget t "concepts") (JVal.arr [])))

/-- Lines 453-459: resolve the concepts alias chain (truthiness), keep a
list as-is, convert any other iterable with `list(...)`, and only wrap
`[str(x)]` when that conversion raises. -/
def resolveConcepts (t : RawTopic) : List JVal :=
  match conceptsValue t with
  | JVal.arr xs => xs
  | other =>
    match pyList other with
    | some l => l
    | none => [JVal.str (pyStr other)]

/-- A normalized topic record (lines 461-466). -/
structure NormTopic where
  name : JVal
  weightage : String
  estimated_hours : JVal
  key_concepts : List JVal
deriving Repr

/-- Normalization of one raw record; `none` models the `AttributeError`
raised by `.upper()` on a non-string resolved weight. -/
def normalizeTopic (t : RawTopic) : Option NormTopic :=
  (resolveWeight t).map (fun w =>
    { name := resolveName t, weightage := w,
      estimated_hours := resolveHours t, key_concepts := resolveConcepts t })

/-- Line 469-470: `order.get(x.get('weightage', 'MEDIUM'), 1)` — every
normalized record has a weightage, and unknown values default to tier 1. -/
def tierOf (w : String) : Nat :=
  if w == "HIGH" then 0 else if w == "MEDIUM" then 1 else if w == "LOW" then 2 else 1

/-- The whole normalization pass of `topics_page` (lines 437-470):
normalize each record (a raise aborts the route), then stable-sort by
priority tier. -/
def topicsNormalize (ts : List RawTopic) : Option (List NormTopic) :=
  (ts.mapM normalizeTopic).map (sortByKey (fun nt => tierOf nt.weightage))

/-! ### Observers used to state the claims -/

/-- String content of a value, when it is a string. -/
def jStr? : JVal → Option String
  | JVal.str s => some s
  | _ => none

/-- The `rank` field of a ranked entry, when it is an integer. -/
def rankField : JVal → Option Int
  | JVal.obj fs =>
    match olookup fs "rank" with
    | some (JVal.num n) => some n
    | _ => none
  | _ => none

/-- The `video_id` field of a ranked entry, when it is a string. -/
def vidField : JVal → Option String
  | JVal.obj fs =>
    match olookup fs "video_id" with
    | some (JVal.str s) => some s
    | _ => none
  | _ => none

/-- Whether a value is a dict carrying the given key. -/
def hasKey (j : JVal) (k : String) : Bool :=
  match j with
  | JVal.obj fs => (olookup fs k).isSome
  | _ => false

/-- Ranks of a list of entries (all entries must carry an integer rank). -/
def ranksOfList : List JVal → Option (List Int)
  | [] => some []
  | x :: xs =>
    match rankField x, ranksOfList xs with
    | some r, some rs => some (r :: rs)
    | _, _ => none

/-- Ranks of a ranking result. -/
def ranksOf : JVal → Option (List Int)
  | JVal.arr xs => ranksOfList xs
  | _ => none

/-- The contiguous 1-based rank sequence `1..k`. -/
def rankSeq (k : Nat) : List Int := (List.range k).map (fun j => Int.ofNat j + 1)

/-- Size of a ranking result: number of entries for a list output, number of
characters for a (tier-1) string output. -/
def outLen : JVal → Nat
  | JVal.arr xs => xs.length
  | JVal.str s => s.length
  | _ => 0

/-- The topics list of a plan dict. -/
def planTopics : JVal → List JVal
  | JVal.obj fs =>
    match olookup fs "topics" with
    | some (JVal.arr xs) => xs
    | _ => []
  | _ => []

/-- The weightage string of a topic dict. -/
def topicWeight (t : JVal) : Option String :=
  match t with
  | JVal.obj fs =>
    match olookup fs "weightage" with
    | some (JVal.str s) => some s
    | _ => none
  | _ => none

/-- The hour estimate of a topic dict. -/
def topicHours (t : JVal) : Option Int :=
  match t with
  | JVal.obj fs =>
    match olookup fs "estimated_hours" with
    | some (JVal.num n) => some n
    | _ => none
  | _ => none

/-- The number of key concepts of a topic dict. -/
def topicConceptsCount (t : JVal) : Option Nat :=
  match t with
  | JVal.obj fs =>
    match olookup fs "key_concepts" with
    | some (JVal.arr xs) => some xs.length
    | _ => none
  | _ => none

/-- The identifying candidate fields that the pipeline never rewrites. -/
def vidCore (v : Video) : String × String × String × String :=
  (v.video_id, v.title, v.channel, v.url)

/-! ### Spec-side definitions (used to compare code behaviour with the
claims' wording; these follow the claims, not the source) -/

/-- Weight canonicalization as claim C5 words it: the first PRESENT alias
among weightage/weight/priority is uppercased and canonicalized, MEDIUM when
the field is absent.  (The code instead takes the first TRUTHY alias.) -/
def claimC5Weight (t : RawTopic) : Option String :=
  let raw := match olookup t "weightage" with
    | some v => some v
    | none =>
      match olookup t "weight" with
      | some v => some v
      | none => olookup t "priority"
  match raw with
  | none => some "MEDIUM"
  | some (JVal.str s) => some (canonWeight (upperStr s))
  | some _ => none

/-- The first alias value among weightage/weight/priority that is truthy,
else the empty string — the amended reading of C5's alias resolution. -/
def firstTruthyAlias (t : RawTopic) : JVal :=
  (([tget t "weightage", tget t "weight", tget t "priority"].find? truthy).getD (JVal.str ""))

/-- Reference merge following claim C3's words for the match/combine/drop
behaviour (already defined above as `mergeSpec`); claim C3's iteration order
(ascending rank) at a concrete out-of-order input is what the counterexample
below refutes. -/
def mergeRanks (out : List Video) : List (Option Int) := out.map Video.rank

/-! ### Helper lemmas: the stable sort -/

theorem mem_insKey (key : α → Nat) (x a : α) :
    ∀ l : List α, a ∈ insKey key x l ↔ a = x ∨ a ∈ l := by
  intro l
  induction l with
  | nil => simp [insKey]
  | cons y ys ih =>
    by_cases h : key x ≤ key y
    · simp [insKey, if_pos h, List.mem_cons]
    · simp only [insKey, if_neg h, List.mem_cons, ih]
      tauto

theorem pairwise_insKey (key : α → Nat) (x : α) :
    ∀ l : List α, l.Pairwise (fun a b => key a ≤ key b) →
      (insKey key x l).Pairwise (fun a b => key a ≤ key b) := by
  intro l
  induction l with
  | nil => intro _; simp [insKey]
  | cons y ys ih =>
    intro h
    rcases List.pairwise_cons.mp h with ⟨hy, hys⟩
    by_cases hxy : key x ≤ key y
    · simp only [insKey, if_pos hxy]
      refine List.pairwise_cons.mpr ⟨?_, h⟩
      intro b hb
      rcases List.mem_cons.mp hb with rfl | hb
      · exact hxy
      · exact le_trans hxy (hy b hb)
    · simp only [insKey, if_neg hxy]
      refine List.pairwise_cons.mpr ⟨?_, ih hys⟩
      intro b hb
      rcases (mem_insKey key x b ys).mp hb with rfl | hb
      · omega
      · exact hy b hb

theorem sortByKey_pairwise (key : α → Nat) (l : List α) :
    (sortByKey key l).Pairwise (fun a b => key a ≤ key b) := by
  induction l with
  | nil => simp [sortByKey]
  | cons x xs ih => exact pairwise_insKey key x (sortByKey key xs) ih

theorem filter_insKey (key : α → Nat) (k : Nat) (x : α) :
    ∀ l : List α, (insKey key x l).filter (fun y => key y == k)
      = if key x == k then x :: l.filter (fun y => key y == k)
        else l.filter (fun y => key y == k) := by
  intro l
  induction l with
  | nil => cases h : (key x == k) <;> simp [insKey, List.filter_cons, h]
  | cons y ys ih =>
    by_cases hxy : key x ≤ key y
    · cases h : (key x == k) <;> simp [insKey, if_pos hxy, List.filter_cons, h]
    · by_cases hy : (key y == k) = true
      · have hyk : key y = k := by simpa using hy
        have hxk : (key x == k) = false := by
          rw [beq_eq_false_iff_ne]
          omega
        simp [insKey, if_neg hxy, List.filter_cons, hy, hxk, ih]
      · have hy2 : (key y == k) = false := by simpa using hy
        cases hx : (key x == k) <;>
          simp [insKey, if_neg hxy, List.filter_cons, hy2, hx, ih]

theorem sortByKey_filter (key : α → Nat) (k : Nat) (l : List α) :
    (sortByKey key l).filter (fun y => key y == k) = l.filter (fun y => key y == k) := by
  induction l with
  | nil => rfl
  | cons x xs ih =>
    show (insKey key x (sortByKey key xs)).filter _ = _
    rw [filter_insKey, List.filter_cons, ih]

theorem insKey_length (key : α → Nat) (x : α) :
    ∀ l : List α, (insKey key x l).length = l.length + 1 := by
  intro l
  induction l with
  | nil => rfl
  | cons y ys ih =>
    by_cases h : key x ≤ key y
    · simp [insKey, if_pos h]
    · simp [insKey, if_neg h, ih]

theorem sortByKey_length (key : α → Nat) (l : List α) :
    (sortByKey key l).length = l.length := by
  induction l with
  | nil => rfl
  | cons x xs ih =>
    show (insKey key x (sortByKey key xs)).length = _
    rw [insKey_length, ih]
    rfl

/-! ### Helper lemmas: ranked-entry construction -/

/-- The contiguous rank sequence starting above `i`. -/
def rankSeqFrom (i : Nat) : Nat → List Int
  | 0 => []
  | n + 1 => (Int.ofNat i + 1) :: rankSeqFrom (i + 1) n

theorem rankSeq_eq_from (k : Nat) : rankSeq k = rankSeqFrom 0 k := by
  have h : ∀ n i, rankSeqFrom i n = (List.range n).map (fun j => Int.ofNat (i + j) + 1) := by
    intro n
    induction n with
    | zero => intro i; rfl
    | succ n ih =>
      intro i
      rw [rankSeqFrom, ih (i + 1), List.range_succ_eq_map]
      simp only [List.map_cons, List.map_map]
      refine congrArg₂ List.cons ?_ ?_
      · simp
      · refine List.map_congr_left ?_
        intro j _
        simp only [Function.comp]
        exact congrArg (fun m => Int.ofNat m + 1) (by omega)
  rw [h k 0, rankSeq]
  simp

theorem withRanks_length (mk : α → Int → JVal) :
    ∀ (i : Nat) (xs : List α), (withRanks mk i xs).length = xs.length := by
  intro i xs
  induction xs generalizing i with
  | nil => rfl
  | cons x xs ih => simp [withRanks, ih]

theorem ranksOfList_withRanks (mk : α → Int → JVal)
    (h : ∀ x n, rankField (mk x n) = some n) :
    ∀ (i : Nat) (xs : List α),
      ranksOfList (withRanks mk i xs) = some (rankSeqFrom i xs.length) := by
  intro i xs
  induction xs generalizing i with
  | nil => rfl
  | cons x xs ih =>
    simp only [withRanks, ranksOfList, h, ih (i + 1), List.length_cons, rankSeqFrom]

theorem withRanks_map (mk : α → Int → JVal) (g : JVal → β) (f : α → β)
    (h : ∀ x n, g (mk x n) = f x) :
    ∀ (i : Nat) (xs : List α), (withRanks mk i xs).map g = xs.map f := by
  intro i xs
  induction xs generalizing i with
  | nil => rfl
  | cons x xs ih => simp [withRanks, h, ih]

theorem withRanks_all (mk : α → Int → JVal) (q : JVal → Bool)
    (h : ∀ x n, q (mk x n) = true) :
    ∀ (i : Nat) (xs : List α), (withRanks mk i xs).all q = true := by
  intro i xs
  induction xs generalizing i with
  | nil => rfl
  | cons x xs ih => simp [withRanks, h, ih]

theorem rankField_tier2Entry (p : IdPos) (r : Int) : rankField (tier2Entry p r) = some r := rfl

theorem rankField_fallbackEntry (v : Video) (r : Int) :
    rankField (fallbackEntry v r) = some r := rfl

theorem vidField_fallbackEntry (v : Video) (r : Int) :
    vidField (fallbackEntry v r) = some v.video_id := rfl

theorem hasKey_fallbackEntry (v : Video) (r : Int) :
    hasKey (fallbackEntry v r) "reasoning" = false := rfl

/-! ### Helper lemmas: the merge loop -/

theorem pyFindIdx_some {p : α → Bool} :
    ∀ {l : List α} {i : Nat}, pyFindIdx p l = some i → ∃ x, l[i]? = some x ∧ p x = true := by
  intro l
  induction l with
  | nil => intro i h; exact absurd h (by simp [pyFindIdx])
  | cons y ys ih =>
    intro i h
    by_cases hp : p y
    · simp only [pyFindIdx, if_pos hp, Option.some.injEq] at h
      subst h
      exact ⟨y, by simp, hp⟩
    · simp only [pyFindIdx, if_neg hp, Option.map_eq_some'] at h
      rcases h with ⟨j, hj, rfl⟩
      rcases ih hj with ⟨x, hx, hpx⟩
      exact ⟨x, by simpa using hx, hpx⟩

theorem find?_eq_pyFindIdx (p : α → Bool) :
    ∀ l : List α, List.find? p l = (pyFindIdx p l).bind (fun i => l[i]?) := by
  intro l
  induction l with
  | nil => rfl
  | cons y ys ih =>
    by_cases hp : p y
    · rw [List.find?_cons_of_pos _ hp]
      simp [pyFindIdx, hp]
    · rw [List.find?_cons_of_neg _ hp, ih]
      simp only [pyFindIdx, if_neg hp]
      cases hfi : pyFindIdx p ys with
      | none => rfl
      | some j => simp

theorem setVid_length (cs : List Video) (i : Nat) (rk : Int) (rs : String) :
    (setVid cs i rk rs).length = cs.length := by
  unfold setVid
  cases h : cs[i]? with
  | none => rfl
  | some v => simp

theorem setVid_getElem?_ne (cs : List Video) (i j : Nat) (rk : Int) (rs : String) (h : i ≠ j) :
    (setVid cs i rk rs)[j]? = cs[j]? := by
  unfold setVid
  cases hv : cs[i]? with
  | none => rfl
  | some v => exact List.getElem?_set_ne h

theorem setVid_getElem?_self (cs : List Video) (i : Nat) (rk : Int) (rs : String) (v : Video)
    (h : cs[i]? = some v) :
    (setVid cs i rk rs)[i]? = some { v with rank := some rk, reasoning := some rs } := by
  unfold setVid
  rw [h]
  have hlen : i < cs.length := by
    by_contra hge
    rw [List.getElem?_eq_none (by omega)] at h
    exact Option.noConfusion h
  simp [List.getElem?_set, hlen]

theorem setVid_core (cs : List Video) (i j : Nat) (rk : Int) (rs : String) :
    ((setVid cs i rk rs)[j]?).map vidCore = (cs[j]?).map vidCore := by
  by_cases hij : i = j
  · subst hij
    cases hv : cs[i]? with
    | none =>
      unfold setVid
      rw [hv]
      show (cs[i]?).map vidCore = Option.map vidCore none
      rw [hv]
    | some v => rw [setVid_getElem?_self cs i rk rs v hv]; rfl
  · rw [setVid_getElem?_ne cs i j rk rs hij]

theorem setVid_cons_succ (c : Video) (t : List Video) (j : Nat) (rk : Int) (rs : String) :
    setVid (c :: t) (j + 1) rk rs = c :: setVid t j rk rs := by
  unfold setVid
  cases h : t[j]? with
  | none => simp [List.getElem?_cons_succ, h]
  | some v => simp [List.getElem?_cons_succ, h]

theorem mergeGo_out (rs : List RankedRef) :
    ∀ (cs : List Video) (out : List Nat),
      mergeGo cs out rs = ((mergeGo cs [] rs).1, out ++ (mergeGo cs [] rs).2) := by
  induction rs with
  | nil => intro cs out; simp [mergeGo]
  | cons r rs ih =>
    intro cs out
    cases hf : pyFindIdx (fun v => v.video_id == r.video_id) cs with
    | none => simp only [mergeGo, hf]; exact ih cs out
    | some i =>
      simp only [mergeGo, hf, List.nil_append]
      rw [ih (setVid cs i r.rank (r.reasoning.getD "")) (out ++ [i]),
        ih (setVid cs i r.rank (r.reasoning.getD "")) [i]]
      simp

theorem mergeGo_length (rs : List RankedRef) :
    ∀ (cs : List Video) (out : List Nat), (mergeGo cs out rs).1.length = cs.length := by
  induction rs with
  | nil => intro cs out; rfl
  | cons r rs ih =>
    intro cs out
    cases hf : pyFindIdx (fun v => v.video_id == r.video_id) cs with
    | none => simp only [mergeGo, hf]; exact ih cs out
    | some i =>
      simp only [mergeGo, hf]
      rw [ih]
      exact setVid_length cs i r.rank (r.reasoning.getD "")

theorem mergeGo_core (rs : List RankedRef) :
    ∀ (cs : List Video) (out : List Nat) (j : Nat),
      ((mergeGo cs out rs).1[j]?).map vidCore = (cs[j]?).map vidCore := by
  induction rs with
  | nil => intro cs out j; rfl
  | cons r rs ih =>
    intro cs out j
    cases hf : pyFindIdx (fun v => v.video_id == r.video_id) cs with
    | none => simp only [mergeGo, hf]; exact ih cs out j
    | some i =>
      simp only [mergeGo, hf]
      rw [ih]
      exact setVid_core cs i j r.rank (r.reasoning.getD "")

theorem mergeGo_untouched (rs : List RankedRef) :
    ∀ (cs : List Video) (out : List Nat) (j : Nat) (v : Video),
      cs[j]? = some v → (∀ r2 ∈ rs, r2.video_id ≠ v.video_id) →
      (mergeGo cs out rs).1[j]? = some v := by
  induction rs with
  | nil => intro cs out j v hj _; exact hj
  | cons r rs ih =>
    intro cs out j v hj hr
    cases hf : pyFindIdx (fun v2 => v2.video_id == r.video_id) cs with
    | none =>
      simp only [mergeGo, hf]
      exact ih cs out j v hj (fun r2 h2 => hr r2 (List.mem_cons_of_mem r h2))
    | some i =>
      simp only [mergeGo, hf]
      have hij : i ≠ j := by
        intro he
        subst he
        rcases pyFindIdx_some hf with ⟨x, hx, hpx⟩
        rw [hj] at hx
        have hxv : x = v := by
          exact (Option.some.injEq x v).mp hx.symm
        have : r.video_id = v.video_id := by
          rw [← hxv]
          exact (beq_iff_eq.mp hpx).symm
        exact hr r (List.mem_cons_self r rs) this
      refine ih _ _ j v ?_ (fun r2 h2 => hr r2 (List.mem_cons_of_mem r h2))
      rw [setVid_getElem?_ne _ _ _ _ _ hij]
      exact hj

theorem find?_setVid :
    ∀ (cs : List Video) (i : Nat) (rk : Int) (rs : String) (r2 : RankedRef),
      (((setVid cs i rk rs).find? (fun v => v.video_id == r2.video_id)).map
        (fun v => { v with rank := some r2.rank, reasoning := some (r2.reasoning.getD "") }))
      = ((cs.find? (fun v => v.video_id == r2.video_id)).map
        (fun v => { v with rank := some r2.rank, reasoning := some (r2.reasoning.getD "") })) := by
  intro cs
  induction cs with
  | nil => intro i rk rs r2; rfl
  | cons c t ih =>
    intro i rk rs r2
    cases i with
    | zero =>
      have h0 : setVid (c :: t) 0 rk rs
          = { c with rank := some rk, reasoning := some rs } :: t := by
        unfold setVid
        simp [List.getElem?_cons_zero]
      rw [h0]
      simp only [List.find?_cons]
      cases hc : c.video_id == r2.video_id <;> simp [hc]
    | succ j =>
      rw [setVid_cons_succ]
      simp only [List.find?_cons]
      cases hc : c.video_id == r2.video_id <;> simp [hc, ih j rk rs r2]

theorem mergeSpec_setVid (rs : List RankedRef) (cs : List Video) (i : Nat) (rk : Int)
    (s : String) : mergeSpec (setVid cs i rk s) rs = mergeSpec cs rs := by
  induction rs with
  | nil => rfl
  | cons r2 t ih =>
    unfold mergeSpec
    simp only [List.filterMap_cons]
    rw [find?_setVid cs i rk s r2]
    unfold mergeSpec at ih
    rw [ih]

theorem mergeGo_spec (refs : List RankedRef) :
    ∀ cs : List Video, (refs.map RankedRef.video_id).Nodup →
      (mergeGo cs [] refs).2.filterMap (fun i => (mergeGo cs [] refs).1[i]?)
        = mergeSpec cs refs := by
  induction refs with
  | nil => intro cs _; rfl
  | cons r rs ih =>
    intro cs hnd
    have hnd1 : r.video_id ∉ rs.map RankedRef.video_id :=
      (List.nodup_cons.mp (by simpa using hnd)).1
    have hnd2 : (rs.map RankedRef.video_id).Nodup :=
      (List.nodup_cons.mp (by simpa using hnd)).2
    cases hf : pyFindIdx (fun v => v.video_id == r.video_id) cs with
    | none =>
      have hfind : cs.find? (fun v => v.video_id == r.video_id) = none := by
        rw [find?_eq_pyFindIdx, hf]
        rfl
      simp only [mergeGo, hf]
      rw [ih cs hnd2]
      unfold mergeSpec
      simp only [List.filterMap_cons, hfind, Option.map_none']
    | some i =>
      rcases pyFindIdx_some hf with ⟨v, hv, hpv⟩
      have hvid : v.video_id = r.video_id := beq_iff_eq.mp hpv
      have hfind : cs.find? (fun v2 => v2.video_id == r.video_id) = some v := by
        rw [find?_eq_pyFindIdx, hf]
        simpa using hv
      have hspec : mergeSpec cs (r :: rs)
          = { v with rank := some r.rank, reasoning := some (r.reasoning.getD "") }
            :: mergeSpec cs rs := by
        unfold mergeSpec
        simp only [List.filterMap_cons, hfind, Option.map_some']
      simp only [mergeGo, hf, List.nil_append]
      rw [mergeGo_out rs (setVid cs i r.rank (r.reasoning.getD "")) [i]]
      simp only [List.singleton_append, List.filterMap_cons]
      have hs : (setVid cs i r.rank (r.reasoning.getD ""))[i]?
          = some { v with rank := some r.rank, reasoning := some (r.reasoning.getD "") } :=
        setVid_getElem?_self cs i r.rank (r.reasoning.getD "") v hv
      have huntouched : (mergeGo (setVid cs i r.rank (r.reasoning.getD "")) [] rs).1[i]?
          = some { v with rank := some r.rank, reasoning := some (r.reasoning.getD "") } := by
        apply mergeGo_untouched rs _ [] i _ hs
        intro r2 h2 heq
        apply hnd1
        have h3 : r2.video_id = r.video_id := by simpa [hvid] using heq
        rw [← h3]
        exact List.mem_map_of_mem RankedRef.video_id h2
      simp only [huntouched]
      rw [ih (setVid cs i r.rank (r.reasoning.getD "")) hnd2, mergeSpec_setVid, hspec]

theorem merge_eq_mergeSpec (cs : List Video) (refs : List RankedRef)
    (h : (refs.map RankedRef.video_id).Nodup) : (merge cs refs).1 = mergeSpec cs refs := by
  unfold merge
  exact mergeGo_spec refs cs h

/-! ### Helper lemmas: the ranking tiers -/

theorem idPositions_vids (text : List Char) :
    ∀ videos : List Video,
      (idPositions videos text).map IdPos.vid
        = (videos.filter
            (fun v => v.video_id != "" && (findSub v.video_id.data text).isSome)).map
            Video.video_id := by
  intro videos
  induction videos with
  | nil => rfl
  | cons v vs ih =>
    by_cases hb : v.video_id = ""
    · simp [idPositions, hb, List.filter_cons, ih]
    · cases hfs : findSub v.video_id.data text with
      | none => simp [idPositions, hb, hfs, List.filter_cons, ih]
      | some pos => simp [idPositions, hb, hfs, List.filter_cons, ih]

theorem idPositions_mem (text : List Char) (p : IdPos) :
    ∀ videos : List Video, p ∈ idPositions videos text →
      p.vid ≠ "" ∧ findSub p.vid.data text = some p.pos ∧ p.reasoning = window text p.pos
        ∧ ∃ v ∈ videos, v.video_id = p.vid := by
  intro videos
  induction videos with
  | nil => intro h; exact absurd h (by simp [idPositions])
  | cons v vs ih =>
    intro h
    by_cases hb : v.video_id = ""
    · rw [show idPositions (v :: vs) text = idPositions vs text by
        simp [idPositions, hb]] at h
      rcases ih h with ⟨h1, h2, h3, w, hw, hww⟩
      exact ⟨h1, h2, h3, w, List.mem_cons_of_mem v hw, hww⟩
    · cases hfs : findSub v.video_id.data text with
      | none =>
        rw [show idPositions (v :: vs) text = idPositions vs text by
          simp [idPositions, hb, hfs]] at h
        rcases ih h with ⟨h1, h2, h3, w, hw, hww⟩
        exact ⟨h1, h2, h3, w, List.mem_cons_of_mem v hw, hww⟩
      | some pos =>
        rw [show idPositions (v :: vs) text
            = ⟨v.video_id, pos, window text pos⟩ :: idPositions vs text by
          simp [idPositions, hb, hfs]] at h
        rcases List.mem_cons.mp h with rfl | hmem
        · exact ⟨hb, hfs, rfl, v, List.mem_cons_self v vs, rfl⟩
        · rcases ih hmem with ⟨h1, h2, h3, w, hw, hww⟩
          exact ⟨h1, h2, h3, w, List.mem_cons_of_mem v hw, hww⟩

theorem tier2_length (videos : List Video) (text : List Char) :
    (tier2 videos text).length = min 5 (idPositions videos text).length := by
  unfold tier2
  rw [withRanks_length, List.length_take, sortByKey_length]

theorem tier2_ranks (videos : List Video) (text : List Char) :
    ranksOf (JVal.arr (tier2 videos text))
      = some (rankSeq (min 5 (idPositions videos text).length)) := by
  show ranksOfList (tier2 videos text) = _
  unfold tier2
  rw [ranksOfList_withRanks tier2Entry rankField_tier2Entry 0, rankSeq_eq_from,
    List.length_take, sortByKey_length]

theorem fallback_ranks (videos : List Video) :
    ranksOf (fallbackJson videos) = some (rankSeq (min 5 videos.length)) := by
  show ranksOfList (withRanks fallbackEntry 0 (videos.take 5)) = _
  rw [ranksOfList_withRanks fallbackEntry rankField_fallbackEntry 0, rankSeq_eq_from,
    List.length_take]

theorem fallback_outLen (videos : List Video) :
    outLen (fallbackJson videos) = min 5 videos.length := by
  show (withRanks fallbackEntry 0 (videos.take 5)).length = _
  rw [withRanks_length, List.length_take]

theorem fallback_vids (videos : List Video) :
    (withRanks fallbackEntry 0 (videos.take 5)).map vidField
      = (videos.take 5).map (fun v => some v.video_id) :=
  withRanks_map fallbackEntry vidField (fun v => some v.video_id)
    vidField_fallbackEntry 0 (videos.take 5)

theorem fallback_no_reasoning (videos : List Video) :
    (withRanks fallbackEntry 0 (videos.take 5)).all (fun e => !(hasKey e "reasoning")) = true :=
  withRanks_all fallbackEntry (fun e => !(hasKey e "reasoning"))
    (fun v n => by simp [hasKey_fallbackEntry]) 0 (videos.take 5)

theorem rank_videos_resp_none (topic exam : String) (videos : List Video) :
    rank_videos topic exam videos none = fallbackJson videos := by
  unfold rank_videos
  by_cases h : videos.isEmpty
  · rw [if_pos h]
    have hv : videos = [] := List.isEmpty_iff.mp h
    subst hv
    rfl
  · rw [if_neg h]

theorem rank_videos_resp_empty (topic exam : String) (videos : List Video) :
    rank_videos topic exam videos (some "") = fallbackJson videos := by
  unfold rank_videos
  by_cases h : videos.isEmpty
  · rw [if_pos h]
    have hv : videos = [] := List.isEmpty_iff.mp h
    subst hv
    rfl
  · rw [if_neg h]
    rfl

theorem rank_videos_tier1_taken (topic exam : String) (videos : List Video) (t : String)
    (ht : t ≠ "") (hne : videos.isEmpty = false) (out : JVal)
    (h1 : tier1 (prepText t) = some out) :
    rank_videos topic exam videos (some t) = out := by
  unfold rank_videos
  have hbeq : (t == "") = false := beq_eq_false_iff_ne.mpr ht
  rw [hne]
  simp only [Bool.false_eq_true, if_false, hbeq, h1]

theorem rank_videos_tier23 (topic exam : String) (videos : List Video) (t : String)
    (ht : t ≠ "") (h1 : tier1 (prepText t) = none) :
    rank_videos topic exam videos (some t)
      = if (tier2 videos (prepText t)).isEmpty then fallbackJson videos
        else JVal.arr (tier2 videos (prepText t)) := by
  unfold rank_videos
  by_cases he : videos.isEmpty
  · rw [if_pos he]
    have hv : videos = [] := List.isEmpty_iff.mp he
    subst hv
    rfl
  · rw [if_neg he]
    have hbeq : (t == "") = false := beq_eq_false_iff_ne.mpr ht
    simp only [hbeq, Bool.false_eq_true, if_false, h1]

/-! ### Helper lemmas: plan generation -/

theorem generate_resp_none : generate_study_plan none = some fallbackPlan := rfl

theorem generate_resp_empty : generate_study_plan (some "") = some fallbackPlan := rfl

theorem generate_decode_fail (s : String) (hs : s ≠ "")
    (h : jsonLoads (String.mk (prepText s)) = none) :
    generate_study_plan (some s) = none := by
  unfold generate_study_plan
  have hbeq : (s == "") = false := beq_eq_false_iff_ne.mpr hs
  simp only [hbeq, Bool.false_eq_true, if_false, h]

theorem generate_decode_ok (s : String) (plan : JVal) (hs : s ≠ "")
    (h : jsonLoads (String.mk (prepText s)) = some plan) :
    generate_study_plan (some s) = if hasTopicsLen plan then some plan else none := by
  unfold generate_study_plan
  have hbeq : (s == "") = false := beq_eq_false_iff_ne.mpr hs
  simp only [hbeq, Bool.false_eq_true, if_false, h]

theorem tier1_outLen (text : List Char) (out : JVal) (h : tier1 text = some out) :
    outLen out ≤ 5 := by
  unfold tier1 at h
  cases he : extractJson text with
  | none =>
    simp only [he] at h
    exact Option.noConfusion h
  | some jt =>
    simp only [he] at h
    cases hj : jsonLoads (String.mk jt) with
    | none =>
      simp only [hj] at h
      exact Option.noConfusion h
    | some result =>
      simp only [hj] at h
      cases hr : tier1Ranked result with
      | arr xs =>
        simp only [hr, Option.some.injEq] at h
        subst h
        show (xs.take 5).length ≤ 5
        rw [List.length_take]
        exact Nat.min_le_left 5 _
      | str s =>
        simp only [hr, Option.some.injEq] at h
        subst h
        show (String.mk (s.data.take 5)).length ≤ 5
        show (s.data.take 5).length ≤ 5
        rw [List.length_take]
        exact Nat.min_le_left 5 _
      | null =>
        simp only [hr] at h
        exact Option.noConfusion h
      | bool b =>
        simp only [hr] at h
        exact Option.noConfusion h
      | num n =>
        simp only [hr] at h
        exact Option.noConfusion h
      | obj fs =>
        simp only [hr] at h
        exact Option.noConfusion h

theorem idPositions_length_le (text : List Char) :
    ∀ videos : List Video, (idPositions videos text).length ≤ videos.length := by
  intro videos
  induction videos with
  | nil => exact Nat.le_refl 0
  | cons v vs ih =>
    by_cases hb : v.video_id = ""
    · rw [show idPositions (v :: vs) text = idPositions vs text by simp [idPositions, hb]]
      exact Nat.le_succ_of_le ih
    · cases hfs : findSub v.video_id.data text with
      | none =>
        rw [show idPositions (v :: vs) text = idPositions vs text by
          simp [idPositions, hb, hfs]]
        exact Nat.le_succ_of_le ih
      | some pos =>
        rw [show idPositions (v :: vs) text
            = ⟨v.video_id, pos, window text pos⟩ :: idPositions vs text by
          simp [idPositions, hb, hfs]]
        simpa using Nat.succ_le_succ ih

theorem fallback_bounds (videos : List Video) :
    outLen (fallbackJson videos) ≤ min 5 videos.length ∧
    ranksOf (fallbackJson videos) = some (rankSeq (outLen (fallbackJson videos))) := by
  rw [fallback_outLen, fallback_ranks]
  exact ⟨Nat.le_refl _, rfl⟩

theorem rank_tier23_bounds (topic exam : String) (videos : List Video) (t : String)
    (ht : t ≠ "") (h1 : tier1 (prepText t) = none) :
    outLen (rank_videos topic exam videos (some t)) ≤ min 5 videos.length ∧
    ranksOf (rank_videos topic exam videos (some t))
      = some (rankSeq (outLen (rank_videos topic exam videos (some t)))) := by
  rw [rank_videos_tier23 topic exam videos t ht h1]
  by_cases hemp : (tier2 videos (prepText t)).isEmpty = true
  · rw [if_pos hemp]
    exact fallback_bounds videos
  · rw [if_neg hemp]
    have hlen : outLen (JVal.arr (tier2 videos (prepText t)))
        = min 5 (idPositions videos (prepText t)).length := by
      show (tier2 videos (prepText t)).length = _
      exact tier2_length videos (prepText t)
    constructor
    · rw [hlen]
      have hle := idPositions_length_le (prepText t) videos
      omega
    · rw [hlen]
      exact tier2_ranks videos (prepText t)

/-! ### Helper lemmas: weight canonicalization -/

theorem resolveWeightRaw_eq_firstTruthy (t : RawTopic) :
    resolveWeightRaw t = firstTruthyAlias t := by
  unfold resolveWeightRaw firstTruthyAlias pyOr
  cases h1 : truthy (tget t "weightage") <;>
    cases h2 : truthy (tget t "weight") <;>
      cases h3 : truthy (tget t "priority") <;>
        simp [List.find?_cons, h1, h2, h3]

theorem canonWeight_mem (w : String) :
    canonWeight w = "HIGH" ∨ canonWeight w = "MEDIUM" ∨ canonWeight w = "LOW" := by
  unfold canonWeight
  split_ifs with h1 h2 h3 h4
  · simp only [Bool.or_eq_true, beq_iff_eq] at h1
    tauto
  · left; rfl
  · right; left; rfl
  · right; right; rfl
  · right; left; rfl

theorem resolveWeight_mem (t : RawTopic) (w : String) (h : resolveWeight t = some w) :
    w = "HIGH" ∨ w = "MEDIUM" ∨ w = "LOW" := by
  unfold resolveWeight at h
  cases hr : resolveWeightRaw t with
  | null => rw [hr] at h; exact Option.noConfusion h
  | bool b => rw [hr] at h; exact Option.noConfusion h
  | num n => rw [hr] at h; exact Option.noConfusion h
  | arr xs => rw [hr] at h; exact Option.noConfusion h
  | obj fs => rw [hr] at h; exact Option.noConfusion h
  | str s =>
    rw [hr] at h
    obtain rfl : canonWeight (upperStr s) = w := (Option.some.injEq _ _).mp h
    exact canonWeight_mem (upperStr s)

/-! ### Claim theorems -/

/-- C9: when the generative model is unusable (`call_model` returns no
text), `generate_study_plan` returns the canonical fallback plan: exactly 5
topics, weight sequence HIGH, HIGH, MEDIUM, LOW, MEDIUM, each topic carrying
exactly 3 placeholder key concepts and the fixed hour estimates
12, 10, 8, 5, 6. -/
theorem C9_generate_no_text :
    generate_study_plan none = some fallbackPlan ∧
    (planTopics fallbackPlan).length = 5 ∧
    (planTopics fallbackPlan).map topicWeight
      = [some "HIGH", some "HIGH", some "MEDIUM", some "LOW", some "MEDIUM"] ∧
    (planTopics fallbackPlan).map topicConceptsCount
      = [some 3, some 3, some 3, some 3, some 3] ∧
    (planTopics fallbackPlan).map topicHours = [some 12, some 10, some 8, some 5, some 6] :=
  ⟨rfl, rfl, rfl, rfl, rfl⟩

/-- C1 counterexample: when the model returns text whose embedded JSON
decode raises (here the non-JSON text "hello"), `generate_study_plan`
returns the `None` sentinel of line 168 — not the fixed fallback plan — so
the claim that every failure yields the fallback plan (and that the
function never returns a non-plan value) is false. -/
theorem C1_counterexample :
    generate_study_plan (some "hello") = none ∧
    ¬ generate_study_plan (some "hello") = some fallbackPlan := by
  refine ⟨rfl, ?_⟩
  intro h
  rw [show generate_study_plan (some "hello") = none from rfl] at h
  exact Option.noConfusion h

/-- C1 (amended): when the collaborator returns no text (or empty text),
`generate_study_plan` returns the fixed fallback plan; when text is present
but its JSON decode fails, it returns the `None` sentinel rather than a
plan; a successfully decoded value is returned as-is when it is a dict with
a measurable `topics` entry (even an empty one) and otherwise yields the
`None` sentinel. -/
theorem C1_amended :
    generate_study_plan none = some fallbackPlan ∧
    generate_study_plan (some "") = some fallbackPlan ∧
    (∀ s : String, s ≠ "" → jsonLoads (String.mk (prepText s)) = none →
      generate_study_plan (some s) = none) ∧
    (∀ (s : String) (plan : JVal), s ≠ "" → jsonLoads (String.mk (prepText s)) = some plan →
      generate_study_plan (some s) = if hasTopicsLen plan then some plan else none) ∧
    generate_study_plan (some "\x7b\"topics\": []\x7d") = some (JVal.obj [("topics", JVal.arr [])]) :=
  ⟨generate_resp_none, generate_resp_empty, generate_decode_fail, generate_decode_ok, rfl⟩

/-- Witness for C1_amended at concrete inputs. -/
theorem C1_amended_witness :
    generate_study_plan (some "hello") = none ∧
    generate_study_plan none = some fallbackPlan :=
  ⟨C1_amended.2.2.1 "hello" (by decide) rfl, C1_amended.1⟩

/-- C4 counterexample: a plain-string concepts value "abc" is split by
`list(...)` into its characters, not wrapped as the single-element sequence
["abc"] the claim prescribes. -/
theorem C4_counterexample :
    resolveConcepts [("key_concepts", JVal.str "abc")]
      = [JVal.str "a", JVal.str "b", JVal.str "c"] ∧
    (resolveConcepts [("key_concepts", JVal.str "abc")]).length = 3 ∧
    (resolveConcepts [("key_concepts", JVal.str "abc")]).map jStr? ≠ [some "abc"] := by
  refine ⟨rfl, rfl, ?_⟩
  intro h
  rw [show (resolveConcepts [("key_concepts", JVal.str "abc")]).map jStr?
      = [some "a", some "b", some "c"] from rfl] at h
  exact absurd h (by decide)

/-- C4 (amended): when the resolved concepts value is not a sequence, the
code attempts `list(...)` conversion — a string becomes the sequence of its
one-character strings, a mapping the sequence of its keys — and only wraps
the value as the single-element sequence of its string form when that
conversion raises (null, booleans, numbers); a sequence is kept as-is, and
`normalizeTopic` stores exactly this resolved value. -/
theorem C4_amended (t : RawTopic) :
    (∀ s, conceptsValue t = JVal.str s →
      resolveConcepts t = s.data.map (fun c => JVal.str (String.mk [c]))) ∧
    (∀ fs, conceptsValue t = JVal.obj fs →
      resolveConcepts t = fs.map (fun f => JVal.str f.1)) ∧
    (∀ n, conceptsValue t = JVal.num n → resolveConcepts t = [JVal.str (toString n)]) ∧
    (∀ b, conceptsValue t = JVal.bool b →
      resolveConcepts t = [JVal.str (if b then "True" else "False")]) ∧
    (conceptsValue t = JVal.null → resolveConcepts t = [JVal.str "None"]) ∧
    (∀ xs, conceptsValue t = JVal.arr xs → resolveConcepts t = xs) ∧
    (∀ nt, normalizeTopic t = some nt → nt.key_concepts = resolveConcepts t) := by
  refine ⟨?_, ?_, ?_, ?_, ?_, ?_, ?_⟩
  · intro s h
    unfold resolveConcepts
    rw [h]
    rfl
  · intro fs h
    unfold resolveConcepts
    rw [h]
    rfl
  · intro n h
    unfold resolveConcepts
    rw [h]
    rfl
  · intro b h
    unfold resolveConcepts
    rw [h]
    cases b <;> rfl
  · intro h
    unfold resolveConcepts
    rw [h]
    rfl
  · intro xs h
    unfold resolveConcepts
    rw [h]
  · intro nt h
    unfold normalizeTopic at h
    rcases Option.map_eq_some'.mp h with ⟨w, _, hnt⟩
    subst hnt
    rfl

/-- Witness for C4_amended at concrete inputs. -/
theorem C4_amended_witness :
    resolveConcepts [("concepts", JVal.num 5)] = [JVal.str "5"] ∧
    resolveConcepts [("keyConcepts", JVal.str "ab")] = [JVal.str "a", JVal.str "b"] :=
  ⟨(C4_amended [("concepts", JVal.num 5)]).2.2.1 5 rfl,
   (C4_amended [("keyConcepts", JVal.str "ab")]).1 "ab" rfl⟩

/-- C5 counterexample: with `weightage` present but empty (falsy) and
`weight` equal to "low", the code's Python-truthiness alias chain selects
"low" and canonicalizes to LOW, whereas the claim's first-PRESENT-alias rule
selects "" and defaults to MEDIUM. -/
theorem C5_counterexample :
    resolveWeight [("weightage", JVal.str ""), ("weight", JVal.str "low")] = some "LOW" ∧
    claimC5Weight [("weightage", JVal.str ""), ("weight", JVal.str "low")] = some "MEDIUM" ∧
    ("LOW" : String) ≠ "MEDIUM" :=
  ⟨rfl, rfl, by decide⟩

/-- C5 (amended): the weight is canonicalized from the first TRUTHY alias
value among weightage/weight/priority (a present-but-empty value falls
through to the next alias); when that value is a string, the result is its
uppercase run through the HIGH/MEDIUM/LOW membership-and-substring
canonicalization — and every weightage a normalization returns is one of
the three canonical values. -/
theorem C5_amended (t : RawTopic) :
    (∀ s, firstTruthyAlias t = JVal.str s →
      resolveWeight t = some (canonWeight (upperStr s))) ∧
    (∀ w, resolveWeight t = some w → w = "HIGH" ∨ w = "MEDIUM" ∨ w = "LOW") ∧
    (∀ nt, normalizeTopic t = some nt →
      nt.weightage = "HIGH" ∨ nt.weightage = "MEDIUM" ∨ nt.weightage = "LOW") := by
  refine ⟨?_, fun w h => resolveWeight_mem t w h, ?_⟩
  · intro s h
    unfold resolveWeight
    rw [resolveWeightRaw_eq_firstTruthy, h]
  · intro nt h
    unfold normalizeTopic at h
    rcases Option.map_eq_some'.mp h with ⟨w, hw, hnt⟩
    subst hnt
    exact resolveWeight_mem t w hw

/-- Witness for C5_amended at concrete inputs (the spec's own test vector
"high priority"). -/
theorem C5_amended_witness :
    resolveWeight [("weightage", JVal.str "high priority")] = some "HIGH" ∧
    (("HIGH" : String) = "HIGH" ∨ ("HIGH" : String) = "MEDIUM" ∨ ("HIGH" : String) = "LOW") :=
  ⟨(C5_amended [("weightage", JVal.str "high priority")]).1 "high priority" rfl,
   (C5_amended [("weightage", JVal.str "high priority")]).2.1 "HIGH"
     ((C5_amended [("weightage", JVal.str "high priority")]).1 "high priority" rfl)⟩

/-- C7: `topicsNormalize` stable-sorts the normalized records by priority
tier HIGH=0, MEDIUM=1, LOW=2: the result is sorted by tier, and for every
tier value the records of that tier appear in exactly their original
relative order. -/
theorem C7_stable_sort (ts : List RawTopic) (l : List NormTopic) (k : Nat)
    (h : ts.mapM normalizeTopic = some l) :
    topicsNormalize ts = some (sortByKey (fun nt => tierOf nt.weightage) l) ∧
    (sortByKey (fun nt => tierOf nt.weightage) l).Pairwise
      (fun a b => tierOf a.weightage ≤ tierOf b.weightage) ∧
    (sortByKey (fun nt => tierOf nt.weightage) l).filter (fun nt => tierOf nt.weightage == k)
      = l.filter (fun nt => tierOf nt.weightage == k) := by
  refine ⟨?_, sortByKey_pairwise (fun nt => tierOf nt.weightage) l,
    sortByKey_filter (fun nt => tierOf nt.weightage) k l⟩
  unfold topicsNormalize
  rw [h]
  rfl

/-- Witness for C7_stable_sort: input tiers LOW, HIGH, HIGH, MEDIUM come out
as HIGH, HIGH, MEDIUM, LOW with the two HIGH records (t2 before t3) in
their input order. -/
theorem C7_witness :
    topicsNormalize
        [[("name", JVal.str "t1"), ("weightage", JVal.str "LOW")],
         [("name", JVal.str "t2"), ("weightage", JVal.str "HIGH")],
         [("name", JVal.str "t3"), ("weightage", JVal.str "HIGH")],
         [("name", JVal.str "t4"), ("weightage", JVal.str "MEDIUM")]]
      = some
        [⟨JVal.str "t2", "HIGH", JVal.str "", []⟩,
         ⟨JVal.str "t3", "HIGH", JVal.str "", []⟩,
         ⟨JVal.str "t4", "MEDIUM", JVal.str "", []⟩,
         ⟨JVal.str "t1", "LOW", JVal.str "", []⟩] ∧
    (sortByKey (fun nt => tierOf nt.weightage)
        ([⟨JVal.str "t1", "LOW", JVal.str "", []⟩,
          ⟨JVal.str "t2", "HIGH", JVal.str "", []⟩,
          ⟨JVal.str "t3", "HIGH", JVal.str "", []⟩,
          ⟨JVal.str "t4", "MEDIUM", JVal.str "", []⟩] : List NormTopic)).filter
        (fun nt => tierOf nt.weightage == 0)
      = ([⟨JVal.str "t1", "LOW", JVal.str "", []⟩,
          ⟨JVal.str "t2", "HIGH", JVal.str "", []⟩,
          ⟨JVal.str "t3", "HIGH", JVal.str "", []⟩,
          ⟨JVal.str "t4", "MEDIUM", JVal.str "", []⟩] : List NormTopic).filter
        (fun nt => tierOf nt.weightage == 0) :=
  ⟨(C7_stable_sort
      [[("name", JVal.str "t1"), ("weightage", JVal.str "LOW")],
       [("name", JVal.str "t2"), ("weightage", JVal.str "HIGH")],
       [("name", JVal.str "t3"), ("weightage", JVal.str "HIGH")],
       [("name", JVal.str "t4"), ("weightage", JVal.str "MEDIUM")]]
      [⟨JVal.str "t1", "LOW", JVal.str "", []⟩,
       ⟨JVal.str "t2", "HIGH", JVal.str "", []⟩,
       ⟨JVal.str "t3", "HIGH", JVal.str "", []⟩,
       ⟨JVal.str "t4", "MEDIUM", JVal.str "", []⟩] 0 rfl).1,
   (C7_stable_sort
      [[("name", JVal.str "t1"), ("weightage", JVal.str "LOW")],
       [("name", JVal.str "t2"), ("weightage", JVal.str "HIGH")],
       [("name", JVal.str "t3"), ("weightage", JVal.str "HIGH")],
       [("name", JVal.str "t4"), ("weightage", JVal.str "MEDIUM")]]
      [⟨JVal.str "t1", "LOW", JVal.str "", []⟩,
       ⟨JVal.str "t2", "HIGH", JVal.str "", []⟩,
       ⟨JVal.str "t3", "HIGH", JVal.str "", []⟩,
       ⟨JVal.str "t4", "MEDIUM", JVal.str "", []⟩] 0 rfl).2.2⟩

/-- C8: the deterministic fallback tier of `rank_videos` — empty candidates
give the empty result (never an error); a missing or empty model text, or
both parsing tiers finding nothing, yields the first min(5, |candidates|)
candidates in their original input order with ranks 1..min(5, |candidates|)
and no reasoning key. -/
theorem C8_deterministic_fallback (topic exam : String) (videos : List Video) (t : String) :
    rank_videos topic exam [] (some t) = JVal.arr [] ∧
    rank_videos topic exam videos none = fallbackJson videos ∧
    rank_videos topic exam videos (some "") = fallbackJson videos ∧
    (t ≠ "" → tier1 (prepText t) = none → idPositions videos (prepText t) = [] →
      rank_videos topic exam videos (some t) = fallbackJson videos) ∧
    ranksOf (fallbackJson videos) = some (rankSeq (min 5 videos.length)) ∧
    (withRanks fallbackEntry 0 (videos.take 5)).map vidField
      = (videos.take 5).map (fun v => some v.video_id) ∧
    (withRanks fallbackEntry 0 (videos.take 5)).all (fun e => !(hasKey e "reasoning")) = true := by
  refine ⟨rfl, rank_videos_resp_none topic exam videos, rank_videos_resp_empty topic exam videos,
    ?_, fallback_ranks videos, fallback_vids videos, fallback_no_reasoning videos⟩
  intro ht h1 h2
  rw [rank_videos_tier23 topic exam videos t ht h1]
  have hemp : (tier2 videos (prepText t)).isEmpty = true := by
    simp [tier2, h2, sortByKey, withRanks]
  rw [if_pos hemp]

/-- Witness for C8_deterministic_fallback at concrete inputs, including the
fall-through case on the non-JSON text "nothing here". -/
theorem C8_witness :
    rank_videos "t" "e"
        [⟨"c1", "T1", "Ch1", "U1", none, none⟩, ⟨"c2", "T2", "Ch2", "U2", none, none⟩,
         ⟨"c3", "T3", "Ch3", "U3", none, none⟩] (some "")
      = fallbackJson
        [⟨"c1", "T1", "Ch1", "U1", none, none⟩, ⟨"c2", "T2", "Ch2", "U2", none, none⟩,
         ⟨"c3", "T3", "Ch3", "U3", none, none⟩] ∧
    rank_videos "t" "e"
        [⟨"c1", "T1", "Ch1", "U1", none, none⟩, ⟨"c2", "T2", "Ch2", "U2", none, none⟩,
         ⟨"c3", "T3", "Ch3", "U3", none, none⟩] (some "nothing here")
      = fallbackJson
        [⟨"c1", "T1", "Ch1", "U1", none, none⟩, ⟨"c2", "T2", "Ch2", "U2", none, none⟩,
         ⟨"c3", "T3", "Ch3", "U3", none, none⟩] ∧
    fallbackJson
        [⟨"c1", "T1", "Ch1", "U1", none, none⟩, ⟨"c2", "T2", "Ch2", "U2", none, none⟩,
         ⟨"c3", "T3", "Ch3", "U3", none, none⟩]
      = JVal.arr
        [JVal.obj [("video_id", JVal.str "c1"), ("rank", JVal.num 1)],
         JVal.obj [("video_id", JVal.str "c2"), ("rank", JVal.num 2)],
         JVal.obj [("video_id", JVal.str "c3"), ("rank", JVal.num 3)]] ∧
    ranksOf (fallbackJson
        [⟨"c1", "T1", "Ch1", "U1", none, none⟩, ⟨"c2", "T2", "Ch2", "U2", none, none⟩,
         ⟨"c3", "T3", "Ch3", "U3", none, none⟩]) = some (rankSeq (min 5 3)) :=
  ⟨(C8_deterministic_fallback "t" "e"
      [⟨"c1", "T1", "Ch1", "U1", none, none⟩, ⟨"c2", "T2", "Ch2", "U2", none, none⟩,
       ⟨"c3", "T3", "Ch3", "U3", none, none⟩] "nothing here").2.2.1,
   (C8_deterministic_fallback "t" "e"
      [⟨"c1", "T1", "Ch1", "U1", none, none⟩, ⟨"c2", "T2", "Ch2", "U2", none, none⟩,
       ⟨"c3", "T3", "Ch3", "U3", none, none⟩] "nothing here").2.2.2.1
      (by decide) rfl rfl,
   rfl,
   (C8_deterministic_fallback "t" "e"
      [⟨"c1", "T1", "Ch1", "U1", none, none⟩, ⟨"c2", "T2", "Ch2", "U2", none, none⟩,
       ⟨"c3", "T3", "Ch3", "U3", none, none⟩] "nothing here").2.2.2.2.1⟩

/-- C10 counterexample: merging one matching reference mutates the
candidates input in place — after the call the stored candidate carries
rank 1 and an empty reasoning string, so the candidates are not left
unchanged. -/
theorem C10_counterexample :
    (merge [⟨"a", "T", "C", "U", none, none⟩] [⟨"a", 1, none⟩]).2
      = [⟨"a", "T", "C", "U", some 1, some ""⟩] ∧
    (merge [⟨"a", "T", "C", "U", none, none⟩] [⟨"a", 1, none⟩]).2
      ≠ [⟨"a", "T", "C", "U", none, none⟩] :=
  ⟨by decide, by decide⟩

/-- C10 (amended): merge mutates matched candidates in place (their rank and
reasoning fields are written), but it preserves the candidate count and
every candidate's identifying fields (video_id, title, channel, url), and a
candidate whose id matches no reference is left entirely unchanged. -/
theorem C10_amended (cs : List Video) (refs : List RankedRef) (j : Nat) (v : Video) :
    (merge cs refs).2.length = cs.length ∧
    ((merge cs refs).2[j]?).map vidCore = (cs[j]?).map vidCore ∧
    (cs[j]? = some v → (∀ r ∈ refs, r.video_id ≠ v.video_id) →
      (merge cs refs).2[j]? = some v) := by
  refine ⟨?_, ?_, ?_⟩
  · exact mergeGo_length refs cs []
  · exact mergeGo_core refs cs [] j
  · intro h1 h2
    exact mergeGo_untouched refs cs [] j v h1 h2

/-- Witness for C10_amended: a single unmatched reference leaves the lone
candidate untouched. -/
theorem C10_amended_witness :
    (merge [⟨"a", "T", "C", "U", none, none⟩] [⟨"b", 1, none⟩]).2.length = 1 ∧
    (merge [⟨"a", "T", "C", "U", none, none⟩] [⟨"b", 1, none⟩]).2[0]?
      = some ⟨"a", "T", "C", "U", none, none⟩ :=
  ⟨(C10_amended [⟨"a", "T", "C", "U", none, none⟩] [⟨"b", 1, none⟩] 0
      ⟨"a", "T", "C", "U", none, none⟩).1,
   (C10_amended [⟨"a", "T", "C", "U", none, none⟩] [⟨"b", 1, none⟩] 0
      ⟨"a", "T", "C", "U", none, none⟩).2.2 rfl (by decide)⟩

/-- C3 counterexample: with the references supplied out of rank order, merge
emits them in sequence order — the output ranks are [2, 1], not the
ascending [1, 2] the claimed ascending-rank iteration would produce. -/
theorem C3_counterexample :
    mergeRanks (merge
        [⟨"a", "T", "C", "U", none, none⟩, ⟨"b", "T2", "C2", "U2", none, none⟩]
        [⟨"b", 2, none⟩, ⟨"a", 1, none⟩]).1 = [some 2, some 1] ∧
    ([some 2, some 1] : List (Option Int)) ≠ [some 1, some 2] :=
  ⟨by decide, by decide⟩

/-- C3 (amended): merge iterates the references in their given sequence
order (which coincides with ascending rank only when the input is already
rank-sorted); with pairwise-distinct reference ids the emitted list is
exactly the reference merge `mergeSpec`: for each reference in order, the
first candidate with matching id combined with that reference's rank and
reasoning (empty string when absent), references with no matching candidate
silently dropped. -/
theorem C3_amended (cs : List Video) (refs : List RankedRef)
    (h : (refs.map RankedRef.video_id).Nodup) :
    (merge cs refs).1 = mergeSpec cs refs :=
  merge_eq_mergeSpec cs refs h

/-- Witness for C3_amended: one candidate "a" against one reference "b"
yields the empty merge (the unmatched reference is dropped). -/
theorem C3_amended_witness :
    (merge [⟨"a", "T", "C", "U", none, none⟩] [⟨"b", 1, none⟩]).1
      = mergeSpec [⟨"a", "T", "C", "U", none, none⟩] [⟨"b", 1, none⟩] ∧
    mergeSpec [⟨"a", "T", "C", "U", none, none⟩] [⟨"b", 1, none⟩] = [] :=
  ⟨C3_amended [⟨"a", "T", "C", "U", none, none⟩] [⟨"b", 1, none⟩] (by decide), rfl⟩

/-- C2 counterexample: tier 1 passes the decoded `ranked_videos` entries
through verbatim — a model-asserted rank 7 on a single candidate is
returned as-is, violating the claimed contiguous 1..k rank sequence
(k = 1 here). -/
theorem C2_counterexample :
    rank_videos "t" "e" [⟨"a", "T", "C", "U", none, none⟩]
        (some "\x7b\"ranked_videos\": [\x7b\"video_id\": \"a\", \"rank\": 7\x7d]\x7d")
      = JVal.arr [JVal.obj [("video_id", JVal.str "a"), ("rank", JVal.num 7)]] ∧
    ranksOf (rank_videos "t" "e" [⟨"a", "T", "C", "U", none, none⟩]
        (some "\x7b\"ranked_videos\": [\x7b\"video_id\": \"a\", \"rank\": 7\x7d]\x7d")) = some [7] ∧
    ([7] : List Int) ≠ rankSeq 1 := by
  refine ⟨rfl, rfl, by decide⟩

/-- C2 (amended): `rank_videos` is total and its output never exceeds 5
entries (or 5 characters when tier 1 decodes `ranked_videos` to a string);
whenever tier 1 produces no result — no text, empty text, or the structured
tier falling through — the output is a list of at most min(5, |candidates|)
entries whose rank fields are exactly 1..k for k the output length.  Tier-1
output itself is the decoded value truncated to 5 entries, with no
guarantee on its rank fields or their relation to the candidate set. -/
theorem C2_amended (topic exam : String) (videos : List Video) (resp : Option String) :
    outLen (rank_videos topic exam videos resp) ≤ 5 ∧
    ((∀ t, resp = some t → t ≠ "" → tier1 (prepText t) = none) →
      outLen (rank_videos topic exam videos resp) ≤ min 5 videos.length ∧
      ranksOf (rank_videos topic exam videos resp)
        = some (rankSeq (outLen (rank_videos topic exam videos resp)))) := by
  by_cases he : videos.isEmpty = true
  · have hv : videos = [] := List.isEmpty_iff.mp he
    subst hv
    have h0 : rank_videos topic exam [] resp = JVal.arr [] := rfl
    rw [h0]
    exact ⟨Nat.zero_le 5, fun _ => ⟨Nat.zero_le _, rfl⟩⟩
  · cases resp with
    | none =>
      rw [rank_videos_resp_none]
      refine ⟨?_, fun _ => fallback_bounds videos⟩
      rw [fallback_outLen]
      exact Nat.min_le_left 5 _
    | some t =>
      by_cases ht : t = ""
      · subst ht
        rw [rank_videos_resp_empty]
        refine ⟨?_, fun _ => fallback_bounds videos⟩
        rw [fallback_outLen]
        exact Nat.min_le_left 5 _
      · cases h1 : tier1 (prepText t) with
        | some out =>
          rw [rank_videos_tier1_taken topic exam videos t ht (by simpa using he) out h1]
          refine ⟨tier1_outLen (prepText t) out h1, ?_⟩
          intro hh
          rw [hh t rfl ht] at h1
          exact Option.noConfusion h1
        | none =>
          have hb := rank_tier23_bounds topic exam videos t ht h1
          refine ⟨?_, fun _ => hb⟩
          calc outLen (rank_videos topic exam videos (some t))
              ≤ min 5 videos.length := hb.1
            _ ≤ 5 := Nat.min_le_left _ _

/-- Witness for C2_amended at a concrete tier-3 input. -/
theorem C2_amended_witness :
    outLen (rank_videos "t" "e" [⟨"a", "T", "C", "U", none, none⟩] none) ≤ 5 ∧
    outLen (rank_videos "t" "e" [⟨"a", "T", "C", "U", none, none⟩] none) ≤ min 5 1 ∧
    ranksOf (rank_videos "t" "e" [⟨"a", "T", "C", "U", none, none⟩] none)
      = some (rankSeq (outLen (rank_videos "t" "e" [⟨"a", "T", "C", "U", none, none⟩] none))) := by
  have h := C2_amended "t" "e" [⟨"a", "T", "C", "U", none, none⟩] none
  have h2 := h.2 (fun t ht hne => Option.noConfusion ht)
  exact ⟨h.1, h2.1, h2.2⟩

/-- C6 counterexample: a candidate with an empty id is skipped by the
heuristic tier (`if not vid: continue`) even though "" occurs as a substring
(at offset 0) of any text; for the non-JSON text "hello" the function
therefore falls through to the deterministic fallback, whose entry carries
no reasoning window at all — not the trimmed window the claim requires for
every candidate whose id occurs in the text. -/
theorem C6_counterexample :
    rank_videos "t" "e" [⟨"", "T", "C", "U", none, none⟩] (some "hello")
      = JVal.arr [JVal.obj [("video_id", JVal.str ""), ("rank", JVal.num 1)]] ∧
    containsSub "" "hello" = true ∧
    hasKey (JVal.obj [("video_id", JVal.str ""), ("rank", JVal.num 1)]) "reasoning" = false :=
  ⟨rfl, rfl, rfl⟩

/-- C6 (amended): when tier 1 yields nothing, the text is non-empty, and at
least one candidate id is found, `rank_videos` returns the heuristic tier:
the candidates whose id is NON-EMPTY and occurs as a plain substring of the
cleaned text, each recorded at its first occurrence offset with the clamped
and trimmed -120/+200 reasoning window, stably sorted ascending by offset,
with ranks exactly 1..k for k = min(5, number found). -/
theorem C6_amended (topic exam : String) (videos : List Video) (t : String) (p : IdPos) (k : Nat)
    (ht : t ≠ "") (h1 : tier1 (prepText t) = none)
    (h2 : idPositions videos (prepText t) ≠ []) :
    rank_videos topic exam videos (some t) = JVal.arr (tier2 videos (prepText t)) ∧
    (idPositions videos (prepText t)).map IdPos.vid
      = (videos.filter
          (fun v => v.video_id != "" && (findSub v.video_id.data (prepText t)).isSome)).map
          Video.video_id ∧
    (p ∈ idPositions videos (prepText t) →
      p.vid ≠ "" ∧ findSub p.vid.data (prepText t) = some p.pos
        ∧ p.reasoning = window (prepText t) p.pos) ∧
    (sortByKey IdPos.pos (idPositions videos (prepText t))).Pairwise
      (fun a b => a.pos ≤ b.pos) ∧
    (sortByKey IdPos.pos (idPositions videos (prepText t))).filter (fun q => q.pos == k)
      = (idPositions videos (prepText t)).filter (fun q => q.pos == k) ∧
    ranksOf (JVal.arr (tier2 videos (prepText t)))
      = some (rankSeq (min 5 (idPositions videos (prepText t)).length)) := by
  refine ⟨?_, idPositions_vids (prepText t) videos, ?_,
    sortByKey_pairwise IdPos.pos (idPositions videos (prepText t)),
    sortByKey_filter IdPos.pos k (idPositions videos (prepText t)),
    tier2_ranks videos (prepText t)⟩
  · have hne2 : ¬ (tier2 videos (prepText t)).isEmpty = true := by
      intro hc
      have h0 : (tier2 videos (prepText t)).length = 0 := by
        rw [List.isEmpty_iff.mp hc]
        rfl
      rw [tier2_length] at h0
      have h3 : (idPositions videos (prepText t)).length = 0 := by omega
      exact h2 (List.length_eq_zero.mp h3)
    rw [rank_videos_tier23 topic exam videos t ht h1, if_neg hne2]
  · intro hp
    rcases idPositions_mem (prepText t) p videos hp with ⟨a, b, c, _⟩
    exact ⟨a, b, c⟩

/-- Witness for C6_amended on the spec's own tier-2 example text. -/
theorem C6_amended_witness :
    rank_videos "t" "e" [⟨"xyz123", "T", "C", "U", none, none⟩]
        (some "no json here but id xyz123 appears once")
      = JVal.arr (tier2 [⟨"xyz123", "T", "C", "U", none, none⟩]
          (prepText "no json here but id xyz123 appears once")) ∧
    rank_videos "t" "e" [⟨"xyz123", "T", "C", "U", none, none⟩]
        (some "no json here but id xyz123 appears once")
      = JVal.arr [JVal.obj [("video_id", JVal.str "xyz123"), ("rank", JVal.num 1),
          ("reasoning", JVal.str "no json here but id xyz123 appears once")]] ∧
    ranksOf (JVal.arr (tier2 [⟨"xyz123", "T", "C", "U", none, none⟩]
        (prepText "no json here but id xyz123 appears once")))
      = some (rankSeq (min 5 (idPositions [⟨"xyz123", "T", "C", "U", none, none⟩]
          (prepText "no json here but id xyz123 appears once")).length)) := by
  have h := C6_amended "t" "e" [⟨"xyz123", "T", "C", "U", none, none⟩]
    "no json here but id xyz123 appears once" ⟨"", 0, ""⟩ 0 (by decide) rfl (by decide)
  exact ⟨h.1, by rfl, h.2.2.2.2.2⟩
